import Mathlib

/-!
Verification of the hyperbot trading system against its specification.

The repository snapshot under verification contains the React dashboard
(`src/App.jsx`, `src/components/*.jsx`) and the strategy documentation
(README).  The backend engine files named by the README (`technical.py`,
`orders.py`, `config.json`, `api_server.py`, `ccxt_main.py`) are not part
of the snapshot, so the core engine components (IndicatorEngine,
CapitalLedger, PositionManager, SignalEvaluator) are modelled from the
specification text; every such definition carries a doc comment starting
with "Modelled from the spec:".  Frontend definitions are translated
directly from the JSX sources.

All monetary and price quantities are embedded as rationals.
-/

namespace Hyperbot

/-- Modelled from the spec: the CapitalLedger record
{totalCapital, cap, reservedCapital, availableCapital, surplus}
(§3 data model; the backend `orders.py` holding it is missing from
the snapshot). -/
structure CapitalLedger where
  totalCapital : ℚ
  cap : ℚ
  reservedCapital : ℚ
  availableCapital : ℚ
  surplus : ℚ
deriving DecidableEq, Repr

/-- Modelled from the spec: derived-field recomputation,
`availableCapital = min(totalCapital, cap) − reservedCapital` and
`surplus = max(0, totalCapital − cap)` (§3). -/
def recompute (total cap reserved : ℚ) : CapitalLedger :=
  { totalCapital := total
    cap := cap
    reservedCapital := reserved
    availableCapital := min total cap - reserved
    surplus := max 0 (total - cap) }

/-- Modelled from the spec: `reserve(amount)` succeeds only if
`amount ≤ availableCapital`, atomically increasing reservedCapital,
and fails with InsufficientCapital otherwise (§4.3). -/
def CapitalLedger.reserve (L : CapitalLedger) (amount : ℚ) : Option CapitalLedger :=
  if amount ≤ L.availableCapital then
    some (recompute L.totalCapital L.cap (L.reservedCapital + amount))
  else
    none

/-- Modelled from the spec: `release(amount, realizedPnl)` decreases
reservedCapital by `amount`, adds `realizedPnl` to totalCapital and
recomputes the derived fields; it never produces negative
reservedCapital (§4.3). -/
def CapitalLedger.release (L : CapitalLedger) (amount pnl : ℚ) : CapitalLedger :=
  recompute (L.totalCapital + pnl) L.cap (max 0 (L.reservedCapital - amount))

/-- Position side. -/
inductive Side where
  | LONG
  | SHORT
deriving DecidableEq, Repr

/-- Position status. -/
inductive PStatus where
  | OPEN
  | CLOSED
deriving DecidableEq, Repr

/-- Modelled from the spec: the Position record created by
`PositionManager.open` (§3, §4.4). -/
structure Position where
  id : ℕ
  side : Side
  entryPrice : ℚ
  notional : ℚ
  margin : ℚ
  leverage : ℚ
  stopLossPrice : ℚ
  takeProfitPrice : ℚ
  status : PStatus
deriving DecidableEq, Repr

/-- Modelled from the spec: the configuration options used by the
capital/position engine (§6). -/
structure Config where
  cap : ℚ
  leverage : ℚ
  capitalPercentage : ℚ
  takeProfitPct : ℚ
  stopLossPct : ℚ
  maxPositions : ℕ
deriving DecidableEq, Repr

/-- Modelled from the spec: direction-aware stop-loss price, computed
from the configured percentage relative to entry — below entry for
LONG, above for SHORT (§4.4). -/
def stopLossPrice (side : Side) (entry slPct : ℚ) : ℚ :=
  match side with
  | .LONG => entry * (1 - slPct / 100)
  | .SHORT => entry * (1 + slPct / 100)

/-- Modelled from the spec: direction-aware take-profit price — above
entry for LONG, below for SHORT (§4.4). -/
def takeProfitPrice (side : Side) (entry tpPct : ℚ) : ℚ :=
  match side with
  | .LONG => entry * (1 + tpPct / 100)
  | .SHORT => entry * (1 - tpPct / 100)

/-- Modelled from the spec: signed PnL
`direction_sign * (exitPrice − entryPrice)/entryPrice * notional` (§4.4). -/
def pnlOf (side : Side) (entry exitP notional : ℚ) : ℚ :=
  match side with
  | .LONG => (exitP - entry) / entry * notional
  | .SHORT => -((exitP - entry) / entry) * notional

/-- Modelled from the spec: the coordinator-owned mutable state —
ledger plus tracked positions (§2, §9). -/
structure BotState where
  ledger : CapitalLedger
  positions : List Position
  nextId : ℕ
deriving DecidableEq, Repr

/-- Number of positions whose status is OPEN. -/
def openCount (ps : List Position) : ℕ :=
  (ps.filter fun p => p.status == PStatus.OPEN).length

/-- Sum of the margins of the OPEN positions. -/
def openMarginSum (ps : List Position) : ℚ :=
  ((ps.filter fun p => p.status == PStatus.OPEN).map Position.margin).sum

/-- Fresh engine state: a ledger with the given total capital and cap,
nothing reserved, no positions. -/
def initState (total cap : ℚ) : BotState :=
  { ledger := recompute total cap 0, positions := [], nextId := 0 }

/-- Modelled from the spec: notional size
`min(totalCapital, cap) * (capitalPercentage/100)` (§4.4). -/
def notionalSize (cfg : Config) (L : CapitalLedger) : ℚ :=
  min L.totalCapital L.cap * (cfg.capitalPercentage / 100)

/-- Modelled from the spec: required margin = `notional / leverage` (§4.4). -/
def requiredMargin (cfg : Config) (L : CapitalLedger) : ℚ :=
  notionalSize cfg L / cfg.leverage

/-- Modelled from the spec: the Position record created by a successful
open (§4.4). -/
def newPosition (cfg : Config) (st : BotState) (side : Side) (entry : ℚ) : Position :=
  { id := st.nextId
    side := side
    entryPrice := entry
    notional := notionalSize cfg st.ledger
    margin := requiredMargin cfg st.ledger
    leverage := cfg.leverage
    stopLossPrice := stopLossPrice side entry cfg.stopLossPct
    takeProfitPrice := takeProfitPrice side entry cfg.takeProfitPct
    status := PStatus.OPEN }

/-- Modelled from the spec: `PositionManager.open` (§4.4, §5, §7).
Rejects when the OPEN-position count has reached `maxPositions`;
computes the notional size and required margin; reserves the margin
(aborting on InsufficientCapital); then attempts the external order
placement, whose outcome is the `fill` argument (`none` = placement
failed after retries).  A failed placement rolls the reservation back
via release, so the ledger returns to its pre-operation state.
Returns the new state and a success flag. -/
def openPosition (cfg : Config) (st : BotState) (side : Side) (fill : Option ℚ) :
    BotState × Bool :=
  if cfg.maxPositions ≤ openCount st.positions then (st, false)
  else
    match st.ledger.reserve (requiredMargin cfg st.ledger), fill with
    | none, _ => (st, false)
    | some L, none => ({ st with ledger := L.release (requiredMargin cfg st.ledger) 0 }, false)
    | some L, some entry =>
      ({ ledger := L
         positions := newPosition cfg st side entry :: st.positions
         nextId := st.nextId + 1 }, true)

/-- Mark the first OPEN position with the given id as CLOSED. -/
def closeById (pid : ℕ) : List Position → List Position
  | [] => []
  | p :: ps =>
    if p.status == PStatus.OPEN && p.id == pid then
      { p with status := PStatus.CLOSED } :: ps
    else
      p :: closeById pid ps

/-- Modelled from the spec: `PositionManager.close` (§4.4).  Finds the
OPEN position with the given id, computes the signed PnL at the exit
price, releases the margin with that PnL and marks the position
CLOSED; a close of an unknown or already-CLOSED position fails and
changes nothing. -/
def closePosition (st : BotState) (pid : ℕ) (exitP : ℚ) : BotState × Bool :=
  match st.positions.find? (fun p => p.status == PStatus.OPEN && p.id == pid) with
  | none => (st, false)
  | some p =>
    let pnl := pnlOf p.side p.entryPrice exitP p.notional
    ({ st with
        ledger := st.ledger.release p.margin pnl
        positions := closeById pid st.positions }, true)

/-- An operation on the position manager: an open (with the external
fill outcome) or a close at an exit price. -/
inductive Op where
  | openOp (side : Side) (fill : Option ℚ)
  | closeOp (pid : ℕ) (exitP : ℚ)
deriving DecidableEq, Repr

/-- One step of the operation sequence. -/
def step (cfg : Config) (st : BotState) : Op → BotState
  | .openOp side fill => (openPosition cfg st side fill).1
  | .closeOp pid exitP => (closePosition st pid exitP).1

/-- Run a sequence of operations. -/
def run (cfg : Config) (st : BotState) : List Op → BotState
  | [] => st
  | op :: rest => run cfg (step cfg st op) rest

/-- The stored derived fields of a ledger agree with the spec formulas
`availableCapital = min(totalCapital, cap) − reservedCapital` and
`surplus = max(0, totalCapital − cap)`. -/
def WFLedger (L : CapitalLedger) : Prop :=
  L.availableCapital = min L.totalCapital L.cap - L.reservedCapital ∧
  L.surplus = max 0 (L.totalCapital - L.cap)

lemma wfLedger_recompute (t c r : ℚ) : WFLedger (recompute t c r) :=
  ⟨rfl, rfl⟩

lemma reserve_some_eq {L L' : CapitalLedger} {a : ℚ} (h : L.reserve a = some L') :
    L' = recompute L.totalCapital L.cap (L.reservedCapital + a) := by
  unfold CapitalLedger.reserve at h
  split at h
  · exact (Option.some.inj h).symm
  · cases h

lemma reserve_some_le {L L' : CapitalLedger} {a : ℚ} (h : L.reserve a = some L') :
    a ≤ L.availableCapital := by
  unfold CapitalLedger.reserve at h
  split at h
  · assumption
  · cases h

lemma wfLedger_step (cfg : Config) (st : BotState) (op : Op)
    (h : WFLedger st.ledger) : WFLedger (step cfg st op).ledger := by
  cases op with
  | openOp side fill =>
    show WFLedger (openPosition cfg st side fill).1.ledger
    unfold openPosition
    split
    · exact h
    · split
      next => exact h
      next L hres => exact wfLedger_recompute _ _ _
      next L entry hres =>
        show WFLedger L
        rw [reserve_some_eq hres]
        exact wfLedger_recompute _ _ _
  | closeOp pid exitP =>
    show WFLedger (closePosition st pid exitP).1.ledger
    unfold closePosition
    split
    · exact h
    · exact wfLedger_recompute _ _ _

lemma wfLedger_run (cfg : Config) (ops : List Op) (st : BotState)
    (h : WFLedger st.ledger) : WFLedger (run cfg st ops).ledger := by
  induction ops generalizing st with
  | nil => exact h
  | cons op rest ih => exact ih _ (wfLedger_step cfg st op h)

lemma release_reserve_cancel (L : CapitalLedger) (m : ℚ)
    (hwf : WFLedger L) (hr : 0 ≤ L.reservedCapital) :
    (recompute L.totalCapital L.cap (L.reservedCapital + m)).release m 0 = L := by
  obtain ⟨h1, h2⟩ := hwf
  have hmm : max 0 (L.reservedCapital + m - m) = L.reservedCapital := by
    rw [add_sub_cancel_right, max_eq_right hr]
  cases L with
  | mk t c r a s =>
    simp only at h1 h2 hr hmm
    simp only [CapitalLedger.release, recompute, add_zero]
    rw [hmm, h1, h2]

lemma openMarginSum_nil : openMarginSum [] = 0 := rfl

lemma openCount_nil : openCount [] = 0 := rfl

lemma openMarginSum_cons (p : Position) (ps : List Position) :
    openMarginSum (p :: ps) =
      (if p.status = PStatus.OPEN then p.margin else 0) + openMarginSum ps := by
  by_cases h : p.status = PStatus.OPEN <;>
    simp [openMarginSum, List.filter_cons, h]

lemma openCount_cons (p : Position) (ps : List Position) :
    openCount (p :: ps) =
      (if p.status = PStatus.OPEN then 1 else 0) + openCount ps := by
  by_cases h : p.status = PStatus.OPEN <;>
    simp [openCount, List.filter_cons, h, Nat.add_comm]

lemma open_mem_count {ps : List Position} {q : Position}
    (hq : q ∈ ps) (hs : q.status = PStatus.OPEN) : 1 ≤ openCount ps := by
  induction ps with
  | nil => cases hq
  | cons p t ih =>
    rw [openCount_cons]
    rcases List.mem_cons.mp hq with h | h
    · subst h
      simp [hs]
    · have := ih h
      omega

lemma count_zero_sum {ps : List Position} (h : openCount ps = 0) :
    openMarginSum ps = 0 := by
  induction ps with
  | nil => rfl
  | cons p t ih =>
    rw [openCount_cons] at h
    rw [openMarginSum_cons]
    by_cases hp : p.status = PStatus.OPEN
    · simp [hp] at h
    · simp only [hp, if_false, if_neg hp, zero_add]
      exact ih (by omega)

/-- Closing the found OPEN position: the margin sum collapses from the
single open margin to zero, and no OPEN position remains. -/
lemma close_sum {pid : ℕ} {ps : List Position} {p : Position}
    (hcnt : openCount ps ≤ 1)
    (hfind : ps.find? (fun q => q.status == PStatus.OPEN && q.id == pid) = some p) :
    openMarginSum ps = p.margin ∧
    openMarginSum (closeById pid ps) = 0 ∧
    openCount (closeById pid ps) = 0 := by
  induction ps with
  | nil => cases hfind
  | cons h t ih =>
    by_cases hp : (h.status == PStatus.OPEN && h.id == pid) = true
    · simp only [List.find?, hp] at hfind
      have hph : h = p := Option.some.inj hfind
      subst hph
      have hopen : h.status = PStatus.OPEN := by
        simp only [Bool.and_eq_true, beq_iff_eq] at hp
        exact hp.1
      rw [openCount_cons, if_pos hopen] at hcnt
      have ht0 : openCount t = 0 := by omega
      have hts : openMarginSum t = 0 := count_zero_sum ht0
      refine ⟨?_, ?_, ?_⟩
      · rw [openMarginSum_cons, if_pos hopen, hts, add_zero]
      · unfold closeById
        rw [if_pos hp, openMarginSum_cons]
        simp [hts]
      · unfold closeById
        rw [if_pos hp, openCount_cons]
        simp [ht0]
    · have hpf : (h.status == PStatus.OPEN && h.id == pid) = false := by
        simpa using hp
      simp only [List.find?, hpf] at hfind
      have hpt : p ∈ t := List.mem_of_find?_eq_some hfind
      have hpo : p.status = PStatus.OPEN := by
        have := List.find?_some hfind
        simp only [Bool.and_eq_true, beq_iff_eq] at this
        exact this.1
      have h1t : 1 ≤ openCount t := open_mem_count hpt hpo
      have hho : h.status ≠ PStatus.OPEN := by
        intro hh
        rw [openCount_cons, if_pos hh] at hcnt
        omega
      have hcnt' : openCount t ≤ 1 := by
        rw [openCount_cons, if_neg hho] at hcnt
        omega
      obtain ⟨s1, s2, s3⟩ := ih hcnt' hfind
      refine ⟨?_, ?_, ?_⟩
      · rw [openMarginSum_cons, if_neg hho, zero_add, s1]
      · unfold closeById
        rw [if_neg hp, openMarginSum_cons, if_neg hho, zero_add, s2]
      · unfold closeById
        rw [if_neg hp, openCount_cons, if_neg hho, zero_add, s3]

/-- An operation is loss-bounded at a state when, if it is a close of
the currently OPEN position, the realized PnL is at least the negated
notional (i.e. the position cannot lose more than its full notional).
Opens are always loss-bounded. -/
def safeOp (st : BotState) : Op → Bool
  | .openOp _ _ => true
  | .closeOp pid exitP =>
    st.positions.all fun p =>
      !(p.status == PStatus.OPEN && p.id == pid) ||
        decide (-p.notional ≤ pnlOf p.side p.entryPrice exitP p.notional)

/-- Every operation along the sequence is loss-bounded at the state it
executes in. -/
def safeOps (cfg : Config) (st : BotState) : List Op → Bool
  | [] => true
  | op :: rest => safeOp st op && safeOps cfg (step cfg st op) rest

/-- Configuration sanity: leverage at least 1, capital percentage in
[0, 100], and the default single-position limit. -/
def ValidCfg (cfg : Config) : Prop :=
  1 ≤ cfg.leverage ∧ 0 ≤ cfg.capitalPercentage ∧ cfg.capitalPercentage ≤ 100 ∧
    cfg.maxPositions = 1

/-- The engine invariant: the ledger's stored derived fields follow the
spec formulas, the cap is nonnegative, reservedCapital equals the sum
of the margins of the OPEN positions, availableCapital is nonnegative,
at most one position is OPEN, and every OPEN position has a
nonnegative margin bounded by its notional, itself bounded by the
total capital. -/
structure Inv (st : BotState) : Prop where
  wf : WFLedger st.ledger
  cap_nn : 0 ≤ st.ledger.cap
  res_eq : st.ledger.reservedCapital = openMarginSum st.positions
  avail_nn : 0 ≤ st.ledger.availableCapital
  cnt : openCount st.positions ≤ 1
  pos_ok : ∀ p ∈ st.positions, p.status = PStatus.OPEN →
    0 ≤ p.margin ∧ p.margin ≤ p.notional ∧ p.notional ≤ st.ledger.totalCapital

lemma inv_open (cfg : Config) (st : BotState) (side : Side) (fill : Option ℚ)
    (hv : ValidCfg cfg) (hinv : Inv st) : Inv (openPosition cfg st side fill).1 := by
  obtain ⟨hlev, hpct0, hpct100, hmax⟩ := hv
  unfold openPosition
  split
  · exact hinv
  next hguard =>
    have hcnt0 : openCount st.positions = 0 := by
      rw [hmax] at hguard
      omega
    have hsum0 : openMarginSum st.positions = 0 := count_zero_sum hcnt0
    have hr0 : st.ledger.reservedCapital = 0 := by rw [hinv.res_eq, hsum0]
    split
    next => exact hinv
    next L hres =>
      rw [reserve_some_eq hres,
        release_reserve_cancel st.ledger _ hinv.wf (by rw [hr0])]
      exact hinv
    next L entry hres =>
      have hLe : L = recompute st.ledger.totalCapital st.ledger.cap
          (st.ledger.reservedCapital + requiredMargin cfg st.ledger) :=
        reserve_some_eq hres
      have hmle : requiredMargin cfg st.ledger ≤ st.ledger.availableCapital :=
        reserve_some_le hres
      have havail : st.ledger.availableCapital =
          min st.ledger.totalCapital st.ledger.cap - st.ledger.reservedCapital :=
        hinv.wf.1
      have hmin0 : 0 ≤ min st.ledger.totalCapital st.ledger.cap := by
        have := hinv.avail_nn
        rw [havail, hr0] at this
        linarith
      have hn0 : 0 ≤ notionalSize cfg st.ledger := by
        unfold notionalSize
        exact mul_nonneg hmin0 (div_nonneg hpct0 (by norm_num))
      have hnmin : notionalSize cfg st.ledger ≤ min st.ledger.totalCapital st.ledger.cap := by
        unfold notionalSize
        have h1 : cfg.capitalPercentage / 100 ≤ 1 :=
          (div_le_one (by norm_num)).mpr hpct100
        calc min st.ledger.totalCapital st.ledger.cap * (cfg.capitalPercentage / 100)
            ≤ min st.ledger.totalCapital st.ledger.cap * 1 := by
              exact mul_le_mul_of_nonneg_left h1 hmin0
          _ = min st.ledger.totalCapital st.ledger.cap := mul_one _
      have hnT : notionalSize cfg st.ledger ≤ st.ledger.totalCapital :=
        le_trans hnmin (min_le_left _ _)
      have hm0 : 0 ≤ requiredMargin cfg st.ledger :=
        div_nonneg hn0 (le_trans zero_le_one hlev)
      have hmn : requiredMargin cfg st.ledger ≤ notionalSize cfg st.ledger :=
        div_le_self hn0 hlev
      constructor
      · rw [hLe]
        exact wfLedger_recompute _ _ _
      · rw [hLe]
        exact hinv.cap_nn
      · rw [hLe]
        show st.ledger.reservedCapital + requiredMargin cfg st.ledger = _
        rw [openMarginSum_cons, if_pos (show (newPosition cfg st side entry).status = PStatus.OPEN from rfl),
          hsum0, add_zero, hr0, zero_add]
        rfl
      · rw [hLe]
        show (0:ℚ) ≤ min st.ledger.totalCapital st.ledger.cap -
          (st.ledger.reservedCapital + requiredMargin cfg st.ledger)
        rw [havail, hr0] at hmle
        rw [hr0]
        linarith
      · rw [openCount_cons, if_pos (show (newPosition cfg st side entry).status = PStatus.OPEN from rfl),
          hcnt0]
      · intro q hq hqo
        rcases List.mem_cons.mp hq with h | h
        · subst h
          refine ⟨hm0, hmn, ?_⟩
          rw [hLe]
          exact hnT
        · exact absurd (open_mem_count h hqo) (by omega)

lemma inv_close (st : BotState) (pid : ℕ) (exitP : ℚ)
    (hinv : Inv st) (hsafe : safeOp st (.closeOp pid exitP) = true) :
    Inv (closePosition st pid exitP).1 := by
  unfold closePosition
  split
  · exact hinv
  next p hfind =>
    have hmem : p ∈ st.positions := List.mem_of_find?_eq_some hfind
    have hpred := List.find?_some hfind
    have hopen : p.status = PStatus.OPEN := by
      simp only [Bool.and_eq_true, beq_iff_eq] at hpred
      exact hpred.1
    obtain ⟨hsum_eq, hsum0', hcnt0'⟩ := close_sum hinv.cnt hfind
    obtain ⟨hm0, hmn, hnT⟩ := hinv.pos_ok p hmem hopen
    have hpnl : -p.notional ≤ pnlOf p.side p.entryPrice exitP p.notional := by
      have hall : ∀ x ∈ st.positions,
          (¬x.status = PStatus.OPEN ∨ ¬x.id = pid) ∨
            -x.notional ≤ pnlOf x.side x.entryPrice exitP x.notional := by
        simpa [safeOp] using hsafe
      simp only [Bool.and_eq_true, beq_iff_eq] at hpred
      rcases hall p hmem with h | h
      · rcases h with h | h
        · exact absurd hpred.1 h
        · exact absurd hpred.2 h
      · exact h
    have hr_eq : st.ledger.reservedCapital = p.margin := by
      rw [hinv.res_eq, hsum_eq]
    have hres0 : max 0 (st.ledger.reservedCapital - p.margin) = 0 := by
      rw [hr_eq, sub_self, max_self]
    constructor
    · exact wfLedger_recompute _ _ _
    · exact hinv.cap_nn
    · show max 0 (st.ledger.reservedCapital - p.margin) = _
      rw [hres0, hsum0']
    · show (0:ℚ) ≤ min (st.ledger.totalCapital + pnlOf p.side p.entryPrice exitP p.notional)
        st.ledger.cap - max 0 (st.ledger.reservedCapital - p.margin)
      rw [hres0, sub_zero]
      refine le_min ?_ hinv.cap_nn
      linarith
    · show openCount (closeById pid st.positions) ≤ 1
      omega
    · intro q hq hqo
      have : 1 ≤ openCount (closeById pid st.positions) := open_mem_count hq hqo
      omega

lemma inv_init (total cap : ℚ) (ht : 0 ≤ total) (hc : 0 ≤ cap) :
    Inv (initState total cap) := by
  constructor
  · exact wfLedger_recompute _ _ _
  · exact hc
  · show (0:ℚ) = openMarginSum []
    rw [openMarginSum_nil]
  · show (0:ℚ) ≤ min total cap - 0
    rw [sub_zero]
    exact le_min ht hc
  · show openCount [] ≤ 1
    rw [openCount_nil]
    omega
  · intro p hp
    cases hp

lemma inv_run (cfg : Config) (hv : ValidCfg cfg) (ops : List Op) (st : BotState)
    (hinv : Inv st) (hsafe : safeOps cfg st ops = true) : Inv (run cfg st ops) := by
  induction ops generalizing st with
  | nil => exact hinv
  | cons op rest ih =>
    rw [safeOps, Bool.and_eq_true] at hsafe
    refine ih (step cfg st op) ?_ hsafe.2
    cases op with
    | openOp side fill => exact inv_open cfg st side fill hv hinv
    | closeOp pid exitP => exact inv_close st pid exitP hinv hsafe.1

/-- The spec's default engine configuration: cap 10000, leverage 5,
capitalPercentage 100, takeProfitPct 5.5, stopLossPct 1.25,
maxPositions 1. -/
def defaultEngineConfig : Config :=
  { cap := 10000, leverage := 5, capitalPercentage := 100,
    takeProfitPct := 5.5, stopLossPct := 1.25, maxPositions := 1 }

/-- Claim C1, counterexample: the claim is false as stated.  From a
fresh ledger with totalCapital 1000 and cap 10000, opening a SHORT
position at entry 100 (notional 1000, margin 200) and closing it at
exit 300 realizes a PnL of −2000, leaving totalCapital at −1000 and
availableCapital at −1000 < 0. -/
theorem available_can_go_negative :
    (run defaultEngineConfig (initState 1000 10000)
        [Op.openOp Side.SHORT (some 100), Op.closeOp 0 300]).ledger.availableCapital < 0 := by
  have h : (run defaultEngineConfig (initState 1000 10000)
      [Op.openOp Side.SHORT (some 100), Op.closeOp 0 300]).ledger.availableCapital = -1000 := by
    norm_num [run, step, openPosition, closePosition, openCount, defaultEngineConfig,
      initState, CapitalLedger.reserve, CapitalLedger.release, recompute, requiredMargin,
      notionalSize, newPosition, closeById, pnlOf, List.find?, min_def, max_def,
      stopLossPrice, takeProfitPrice]
  rw [h]
  norm_num

/-- Claim C1 (amended): for every sequence of open/close operations
from a fresh ledger, under a sane configuration with the default
single-position limit, and provided every close realizes a PnL of at
least the negated notional of the position being closed (always true
for LONG closes at nonnegative exit prices), reservedCapital equals
the sum of the margins of the OPEN positions and availableCapital is
nonnegative at every observation point. -/
theorem reservedCapital_matches_and_available_nonneg
    (cfg : Config) (total : ℚ) (ops : List Op)
    (hv : ValidCfg cfg) (ht : 0 ≤ total) (hc : 0 ≤ cfg.cap)
    (hs : safeOps cfg (initState total cfg.cap) ops = true) :
    (run cfg (initState total cfg.cap) ops).ledger.reservedCapital
      = openMarginSum (run cfg (initState total cfg.cap) ops).positions ∧
    0 ≤ (run cfg (initState total cfg.cap) ops).ledger.availableCapital := by
  have h := inv_run cfg hv ops _ (inv_init total cfg.cap ht hc) hs
  exact ⟨h.res_eq, h.avail_nn⟩

/-- Operation sequence used to witness the amended Claim C1. -/
def witnessOps : List Op := [Op.openOp Side.LONG (some 100), Op.closeOp 0 110]

/-- Witness for the amended Claim C1 at a concrete safe sequence. -/
theorem reservedCapital_matches_and_available_nonneg_witness :
    ValidCfg defaultEngineConfig ∧ (0:ℚ) ≤ 1000 ∧ (0:ℚ) ≤ defaultEngineConfig.cap ∧
    safeOps defaultEngineConfig (initState 1000 defaultEngineConfig.cap) witnessOps = true ∧
    ((run defaultEngineConfig (initState 1000 defaultEngineConfig.cap) witnessOps).ledger.reservedCapital
        = openMarginSum (run defaultEngineConfig (initState 1000 defaultEngineConfig.cap) witnessOps).positions ∧
      0 ≤ (run defaultEngineConfig (initState 1000 defaultEngineConfig.cap) witnessOps).ledger.availableCapital) := by
  have hv : ValidCfg defaultEngineConfig := by
    refine ⟨?_, ?_, ?_, rfl⟩ <;> norm_num [defaultEngineConfig]
  have hs : safeOps defaultEngineConfig (initState 1000 defaultEngineConfig.cap) witnessOps = true := by
    norm_num [safeOps, safeOp, witnessOps, run, step, openPosition, closePosition,
      openCount, defaultEngineConfig, initState, CapitalLedger.reserve,
      CapitalLedger.release, recompute, requiredMargin, notionalSize, newPosition,
      closeById, pnlOf, List.find?, min_def, max_def, stopLossPrice, takeProfitPrice]
  refine ⟨hv, by norm_num, by norm_num [defaultEngineConfig], hs, ?_⟩
  exact reservedCapital_matches_and_available_nonneg defaultEngineConfig 1000 witnessOps
    hv (by norm_num) (by norm_num [defaultEngineConfig]) hs

/-- Claim C2: at every observation point the ledger satisfies
`availableCapital = min(totalCapital, cap) − reservedCapital` and
`surplus = max(0, totalCapital − cap)`; in the scenario
totalCapital = 12000, cap = 10000, availableCapital is computed
against 10000 only and surplus = 2000. -/
theorem ledger_derived_fields_formulas (cfg : Config) (total cap : ℚ) (ops : List Op) :
    WFLedger (run cfg (initState total cap) ops).ledger ∧
    (initState 12000 10000).ledger.availableCapital = 10000 ∧
    (initState 12000 10000).ledger.surplus = 2000 := by
  refine ⟨wfLedger_run cfg ops _ (wfLedger_recompute _ _ _), ?_, ?_⟩
  · show min (12000:ℚ) 10000 - 0 = 10000
    norm_num [min_def]
  · show max (0:ℚ) (12000 - 10000) = 2000
    norm_num [max_def]

/-- Claim C3: a failed open — whether the position limit is hit, the
reservation fails with InsufficientCapital, or the external order
placement fails after the margin was reserved — leaves the whole
state (ledger and position list) exactly as it was before the
operation, so no position is created and the ledger is rolled back. -/
theorem open_failure_is_all_or_nothing
    (cfg : Config) (st : BotState) (side : Side) (fill : Option ℚ)
    (hwf : WFLedger st.ledger) (hr : 0 ≤ st.ledger.reservedCapital)
    (hfail : (openPosition cfg st side fill).2 = false) :
    (openPosition cfg st side fill).1 = st := by
  revert hfail
  unfold openPosition
  split
  · intro _
    rfl
  · split
    next =>
      intro _
      rfl
    next L hres =>
      intro _
      rw [reserve_some_eq hres, release_reserve_cancel st.ledger _ hwf hr]
    next L entry hres =>
      intro hfail
      simp at hfail

/-- Witness for Claim C3: with 100 total capital and cap 50, an open
whose external order placement fails (fill = none) reports failure and
leaves the fresh state untouched. -/
theorem open_failure_is_all_or_nothing_witness :
    WFLedger (initState 100 50).ledger ∧
    (0:ℚ) ≤ (initState 100 50).ledger.reservedCapital ∧
    (openPosition defaultEngineConfig (initState 100 50) Side.LONG none).2 = false ∧
    (openPosition defaultEngineConfig (initState 100 50) Side.LONG none).1 = initState 100 50 := by
  have hwf : WFLedger (initState 100 50).ledger := wfLedger_recompute _ _ _
  have hr : (0:ℚ) ≤ (initState 100 50).ledger.reservedCapital := le_refl 0
  have hfail : (openPosition defaultEngineConfig (initState 100 50) Side.LONG none).2 = false := by
    norm_num [openPosition, openCount, initState, CapitalLedger.reserve, recompute,
      requiredMargin, notionalSize, defaultEngineConfig, min_def, max_def]
  exact ⟨hwf, hr, hfail, open_failure_is_all_or_nothing _ _ _ _ hwf hr hfail⟩

/-- Claim C7: stop-loss and take-profit prices are computed from the
configured percentages relative to entry, direction-aware: for LONG
the stop-loss is below entry and the take-profit above, inverse for
SHORT; and a LONG at entry 50000 with stopLossPct 1.25 has
stopLossPrice exactly 49375 = 50000 × (1 − 0.0125). -/
theorem stop_take_prices_direction_aware (entry slPct tpPct : ℚ)
    (he : 0 < entry) (hsl : 0 < slPct) (htp : 0 < tpPct) :
    (stopLossPrice Side.LONG entry slPct < entry ∧
     entry < takeProfitPrice Side.LONG entry tpPct ∧
     entry < stopLossPrice Side.SHORT entry slPct ∧
     takeProfitPrice Side.SHORT entry tpPct < entry) ∧
    stopLossPrice Side.LONG 50000 1.25 = 49375 := by
  constructor
  · have hsl' : 0 < entry * (slPct / 100) :=
      mul_pos he (div_pos hsl (by norm_num))
    have htp' : 0 < entry * (tpPct / 100) :=
      mul_pos he (div_pos htp (by norm_num))
    refine ⟨?_, ?_, ?_, ?_⟩ <;>
      · simp only [stopLossPrice, takeProfitPrice]
        nlinarith
  · norm_num [stopLossPrice]

/-- Witness for Claim C7 at entry 50000, stopLossPct 1.25,
takeProfitPct 5.5. -/
theorem stop_take_prices_direction_aware_witness :
    (0:ℚ) < 50000 ∧ (0:ℚ) < 1.25 ∧ (0:ℚ) < 5.5 ∧
    ((stopLossPrice Side.LONG 50000 1.25 < 50000 ∧
      50000 < takeProfitPrice Side.LONG 50000 5.5 ∧
      50000 < stopLossPrice Side.SHORT 50000 1.25 ∧
      takeProfitPrice Side.SHORT 50000 5.5 < 50000) ∧
     stopLossPrice Side.LONG 50000 1.25 = 49375) := by
  refine ⟨by norm_num, by norm_num, by norm_num, ?_⟩
  exact stop_take_prices_direction_aware 50000 1.25 5.5
    (by norm_num) (by norm_num) (by norm_num)

/-! ## IndicatorEngine -/

/-- Modelled from the spec: the indicator configuration
(rsiPeriod 14, bollingerPeriod 20, bollingerStdDev 2 by default) (§6).
The backend `technical.py` holding the indicator code is missing from
the snapshot. -/
structure IndCfg where
  rsiPeriod : ℕ
  bollingerPeriod : ℕ
  bollingerStdDev : ℚ
deriving DecidableEq, Repr

/-- Modelled from the spec: the IndicatorSnapshot record
{rsi, smaMid, bandUpper, bandLower, bbWidth} (§3). -/
structure Snapshot where
  rsi : ℚ
  smaMid : ℚ
  bandUpper : ℚ
  bandLower : ℚ
  bbWidth : ℚ
deriving DecidableEq, Repr

/-- Successive close-to-close deltas of a time-ordered close series. -/
def deltas (closes : List ℚ) : List ℚ :=
  List.zipWith (fun a b => b - a) closes closes.tail

/-- Modelled from the spec: Wilder smoothing over period P — the first
average is a simple mean of the first P values; each subsequent
average is `(prevAvg*(P-1) + newValue)/P` (§4.1). -/
def wilderAvg (P : ℕ) (vs : List ℚ) : ℚ :=
  (vs.drop P).foldl (fun avg v => (avg * ((P : ℚ) - 1) + v) / (P : ℚ))
    ((vs.take P).sum / (P : ℚ))

/-- Modelled from the spec: RSI with Wilder smoothing,
`RSI = 100 − 100/(1 + avgGain/avgLoss)`; if avgLoss = 0 then RSI = 100,
if avgGain = 0 then RSI = 0 (§4.1). -/
def rsiOf (P : ℕ) (closes : List ℚ) : ℚ :=
  let ds := deltas closes
  let avgGain := wilderAvg P (ds.map fun d => max d 0)
  let avgLoss := wilderAvg P (ds.map fun d => max (-d) 0)
  if avgLoss = 0 then 100
  else if avgGain = 0 then 0
  else 100 - 100 / (1 + avgGain / avgLoss)

/-- The last n elements of a list. -/
def lastN (n : ℕ) (xs : List ℚ) : List ℚ := xs.drop (xs.length - n)

/-- Modelled from the spec: simple moving average over the last n
closes (§4.1). -/
def smaOf (n : ℕ) (xs : List ℚ) : ℚ := (lastN n xs).sum / (n : ℚ)

/-- Modelled from the spec: population variance over the last n closes
(§4.1 takes the standard deviation over the same window as the SMA). -/
def varianceOf (n : ℕ) (xs : List ℚ) : ℚ :=
  ((lastN n xs).map fun x => (x - smaOf n xs) ^ 2).sum / (n : ℚ)

/-- Modelled from the spec: the standard deviation is the square root
of the variance; embedded as an executable nonnegative rational
square-root approximation (for q = n/d, `Nat.sqrt (n*d) / d`), since
every property claimed of the bands depends only on σ ≥ 0. -/
def sqrtQ (q : ℚ) : ℚ :=
  if q ≤ 0 then 0 else (Nat.sqrt (q.num.toNat * q.den) : ℚ) / (q.den : ℚ)

/-- Modelled from the spec: the IndicatorEngine pure transform (§4.1).
Returns none (InsufficientData) when the window is shorter than
`max(rsiPeriod, bollingerPeriod)`; otherwise the full snapshot with
upper/lower = SMA ± stdDev·σ and `BB Width = (upper − lower)/SMA`. -/
def computeIndicators (cfg : IndCfg) (closes : List ℚ) : Option Snapshot :=
  if closes.length < max cfg.rsiPeriod cfg.bollingerPeriod then none
  else
    let sma := smaOf cfg.bollingerPeriod closes
    let sigma := sqrtQ (varianceOf cfg.bollingerPeriod closes)
    let upper := sma + cfg.bollingerStdDev * sigma
    let lower := sma - cfg.bollingerStdDev * sigma
    some { rsi := rsiOf cfg.rsiPeriod closes
           smaMid := sma
           bandUpper := upper
           bandLower := lower
           bbWidth := (upper - lower) / sma }

/-- Claim C4: the IndicatorEngine returns InsufficientData (none)
exactly on the windows strictly shorter than
`max(rsiPeriod, bollingerPeriod)`, and a full snapshot on every window
at least that long. -/
theorem insufficientData_iff_short_window (cfg : IndCfg) (closes : List ℚ) :
    (computeIndicators cfg closes).isSome =
      decide (max cfg.rsiPeriod cfg.bollingerPeriod ≤ closes.length) := by
  unfold computeIndicators
  by_cases h : closes.length < max cfg.rsiPeriod cfg.bollingerPeriod
  · rw [if_pos h]
    simp [Nat.not_le.mpr h]
  · rw [if_neg h]
    simp [Nat.not_lt.mp h]

lemma wilderAvg_nonneg (P : ℕ) (vs : List ℚ) (h : ∀ v ∈ vs, 0 ≤ v) :
    0 ≤ wilderAvg P vs := by
  unfold wilderAvg
  have hstep : ∀ (l : List ℚ) (acc : ℚ), 0 ≤ acc → (∀ v ∈ l, 0 ≤ v) →
      0 ≤ l.foldl (fun avg v => (avg * ((P : ℚ) - 1) + v) / (P : ℚ)) acc := by
    intro l
    induction l with
    | nil => intro acc hacc _; exact hacc
    | cons v t ih =>
      intro acc hacc hl
      rw [List.foldl_cons]
      refine ih _ ?_ (fun w hw => hl w (List.mem_cons_of_mem _ hw))
      rcases Nat.eq_zero_or_pos P with hP | hP
      · simp [hP]
      · have hP1 : (1:ℚ) ≤ (P : ℚ) := by exact_mod_cast hP
        refine div_nonneg ?_ (by linarith)
        have hv : 0 ≤ v := hl v (List.mem_cons_self _ _)
        nlinarith
  refine hstep _ _ ?_ ?_
  · refine div_nonneg (List.sum_nonneg ?_) (by positivity)
    intro v hv
    exact h v (List.mem_of_mem_take hv)
  · intro v hv
    exact h v (List.mem_of_mem_drop hv)

lemma rsi_formula_bounds (g l : ℚ) (hg : 0 ≤ g) (hl : 0 ≤ l) :
    0 ≤ (if l = 0 then (100:ℚ) else if g = 0 then 0 else 100 - 100 / (1 + g / l)) ∧
    (if l = 0 then (100:ℚ) else if g = 0 then 0 else 100 - 100 / (1 + g / l)) ≤ 100 := by
  by_cases hl0 : l = 0
  · simp [hl0]
  · by_cases hg0 : g = 0
    · simp [hl0, hg0]
    · rw [if_neg hl0, if_neg hg0]
      have hlpos : 0 < l := lt_of_le_of_ne hl (Ne.symm hl0)
      have hgpos : 0 < g := lt_of_le_of_ne hg (Ne.symm hg0)
      have hq : 0 < g / l := div_pos hgpos hlpos
      have hfrac_pos : 0 < 100 / (1 + g / l) := div_pos (by norm_num) (by linarith)
      have hfrac_le : 100 / (1 + g / l) ≤ 100 := by
        rw [div_le_iff₀ (by linarith)]
        nlinarith
      constructor <;> linarith

lemma rsiOf_bounds (P : ℕ) (closes : List ℚ) :
    0 ≤ rsiOf P closes ∧ rsiOf P closes ≤ 100 := by
  have hg : 0 ≤ wilderAvg P ((deltas closes).map fun d => max d 0) := by
    refine wilderAvg_nonneg _ _ ?_
    intro v hv
    obtain ⟨d, _, rfl⟩ := List.mem_map.mp hv
    exact le_max_right _ _
  have hl : 0 ≤ wilderAvg P ((deltas closes).map fun d => max (-d) 0) := by
    refine wilderAvg_nonneg _ _ ?_
    intro v hv
    obtain ⟨d, _, rfl⟩ := List.mem_map.mp hv
    exact le_max_right _ _
  exact rsi_formula_bounds _ _ hg hl

lemma sqrtQ_nonneg (q : ℚ) : 0 ≤ sqrtQ q := by
  unfold sqrtQ
  split
  · exact le_rfl
  · exact div_nonneg (Nat.cast_nonneg _) (Nat.cast_nonneg _)

/-- Claim C5: on every window long enough to produce a snapshot, the
RSI lies in [0, 100], and with a nonnegative band multiplier the bands
satisfy bandLower ≤ smaMid ≤ bandUpper. -/
theorem rsi_bounded_and_bands_ordered (cfg : IndCfg) (closes : List ℚ) (s : Snapshot)
    (hsd : 0 ≤ cfg.bollingerStdDev)
    (hs : computeIndicators cfg closes = some s) :
    0 ≤ s.rsi ∧ s.rsi ≤ 100 ∧ s.bandLower ≤ s.smaMid ∧ s.smaMid ≤ s.bandUpper := by
  unfold computeIndicators at hs
  split at hs
  · cases hs
  · have hsig : 0 ≤ cfg.bollingerStdDev * sqrtQ (varianceOf cfg.bollingerPeriod closes) :=
      mul_nonneg hsd (sqrtQ_nonneg _)
    obtain ⟨h1, h2⟩ := rsiOf_bounds cfg.rsiPeriod closes
    cases hs
    refine ⟨h1, h2, ?_, ?_⟩ <;>
      · show _ ≤ _
        simp only
        linarith

/-- The default indicator configuration: rsiPeriod 14,
bollingerPeriod 20, bollingerStdDev 2. -/
def indCfgDefault : IndCfg := { rsiPeriod := 14, bollingerPeriod := 20, bollingerStdDev := 2 }

/-- A 20-candle close window of constant price 1. -/
def closes20 : List ℚ := [1, 1, 1, 1, 1, 1, 1, 1, 1, 1, 1, 1, 1, 1, 1, 1, 1, 1, 1, 1]

/-- The snapshot the IndicatorEngine produces on `closes20`: constant
prices give zero deltas, so avgLoss = 0 and RSI = 100, SMA = 1, zero
variance and coincident bands. -/
def snap20 : Snapshot :=
  { rsi := 100, smaMid := 1, bandUpper := 1, bandLower := 1, bbWidth := 0 }

/-- Witness for Claim C5 on the constant 20-candle window. -/
theorem rsi_bounded_and_bands_ordered_witness :
    (0:ℚ) ≤ indCfgDefault.bollingerStdDev ∧
    computeIndicators indCfgDefault closes20 = some snap20 ∧
    (0 ≤ snap20.rsi ∧ snap20.rsi ≤ 100 ∧
      snap20.bandLower ≤ snap20.smaMid ∧ snap20.smaMid ≤ snap20.bandUpper) := by
  have h2 : (0:ℚ) ≤ indCfgDefault.bollingerStdDev := by norm_num [indCfgDefault]
  have hs : computeIndicators indCfgDefault closes20 = some snap20 := by
    norm_num [computeIndicators, indCfgDefault, closes20, snap20, rsiOf, deltas,
      wilderAvg, smaOf, varianceOf, sqrtQ, lastN]
  exact ⟨h2, hs, rsi_bounded_and_bands_ordered indCfgDefault closes20 snap20 h2 hs⟩

/-! ## SignalEvaluator -/

/-- Modelled from the spec: the signal-evaluation configuration —
RSI entry bands for LONG ([30,35] by default) and SHORT ([65,70] by
default), the BB-width volatility filter bounds and the position
limit (§4.2, §6).  The backend `technical.py` holding the evaluator
is missing from the snapshot. -/
structure SigCfg where
  rsiLongLower : ℚ
  rsiLongUpper : ℚ
  rsiShortLower : ℚ
  rsiShortUpper : ℚ
  bbWidthMin : ℚ
  bbWidthMax : ℚ
  maxPositions : ℕ
deriving DecidableEq, Repr

/-- Signal direction. -/
inductive SignalDirection where
  | LONG
  | SHORT
  | NONE
deriving DecidableEq, Repr

/-- Modelled from the spec: the LONG entry rule — RSI in the LONG
band, close touching or crossing the lower band, BB width inside the
volatility filter (§4.2). -/
def longEntryCond (cfg : SigCfg) (close : ℚ) (s : Snapshot) : Bool :=
  decide (cfg.rsiLongLower ≤ s.rsi) && decide (s.rsi ≤ cfg.rsiLongUpper) &&
    decide (close ≤ s.bandLower) &&
    decide (cfg.bbWidthMin ≤ s.bbWidth) && decide (s.bbWidth ≤ cfg.bbWidthMax)

/-- Modelled from the spec: the SHORT entry rule — RSI in the SHORT
band, close touching or crossing the upper band, BB width inside the
volatility filter (§4.2). -/
def shortEntryCond (cfg : SigCfg) (close : ℚ) (s : Snapshot) : Bool :=
  decide (cfg.rsiShortLower ≤ s.rsi) && decide (s.rsi ≤ cfg.rsiShortUpper) &&
    decide (s.bandUpper ≤ close) &&
    decide (cfg.bbWidthMin ≤ s.bbWidth) && decide (s.bbWidth ≤ cfg.bbWidthMax)

/-- Modelled from the spec: the SignalEvaluator pure transform — NONE
when no position slot is available (the OPEN-position count reached
maxPositions), otherwise LONG/SHORT per the entry rules, NONE when no
rule matches (§4.2). -/
def evalSignal (cfg : SigCfg) (openPositions : ℕ) (close : ℚ) (s : Snapshot) :
    SignalDirection :=
  if cfg.maxPositions ≤ openPositions then SignalDirection.NONE
  else if longEntryCond cfg close s then SignalDirection.LONG
  else if shortEntryCond cfg close s then SignalDirection.SHORT
  else SignalDirection.NONE

/-- Claim C6: whenever the LONG RSI band lies strictly below the SHORT
RSI band (as with the defaults, 35 < 65), the LONG and SHORT entry
rules can never both match the same evaluation, and the evaluator
emits NONE whenever the OPEN-position count has reached maxPositions. -/
theorem signal_exclusive_and_none_at_capacity
    (cfg : SigCfg) (openPositions : ℕ) (close : ℚ) (s : Snapshot)
    (hsep : cfg.rsiLongUpper < cfg.rsiShortLower) :
    ¬(longEntryCond cfg close s = true ∧ shortEntryCond cfg close s = true) ∧
    (cfg.maxPositions ≤ openPositions →
      evalSignal cfg openPositions close s = SignalDirection.NONE) := by
  constructor
  · rintro ⟨hlong, hshort⟩
    simp only [longEntryCond, Bool.and_eq_true, decide_eq_true_eq] at hlong
    simp only [shortEntryCond, Bool.and_eq_true, decide_eq_true_eq] at hshort
    obtain ⟨⟨⟨⟨_, hub⟩, _⟩, _⟩, _⟩ := hlong
    obtain ⟨⟨⟨⟨hlb, _⟩, _⟩, _⟩, _⟩ := hshort
    linarith
  · intro h
    unfold evalSignal
    rw [if_pos h]

/-- The default signal configuration: LONG band [30,35], SHORT band
[65,70], BB width filter [0.01,0.08], maxPositions 1. -/
def sigCfgDefault : SigCfg :=
  { rsiLongLower := 30, rsiLongUpper := 35, rsiShortLower := 65, rsiShortUpper := 70,
    bbWidthMin := 0.01, bbWidthMax := 0.08, maxPositions := 1 }

/-- Witness for Claim C6 with the default configuration and one open
position. -/
theorem signal_exclusive_and_none_at_capacity_witness :
    sigCfgDefault.rsiLongUpper < sigCfgDefault.rsiShortLower ∧
    (¬(longEntryCond sigCfgDefault 1 snap20 = true ∧
        shortEntryCond sigCfgDefault 1 snap20 = true) ∧
      (sigCfgDefault.maxPositions ≤ 1 →
        evalSignal sigCfgDefault 1 1 snap20 = SignalDirection.NONE)) := by
  have hsep : sigCfgDefault.rsiLongUpper < sigCfgDefault.rsiShortLower := by
    norm_num [sigCfgDefault]
  exact ⟨hsep, signal_exclusive_and_none_at_capacity sigCfgDefault 1 1 snap20 hsep⟩

/-! ## Settings dashboard component (src/components/Settings.jsx) -/

/-- The settings object held by the Settings component; translated
from Settings.jsx lines 5-37. -/
structure SettingsState where
  maxCapital : ℚ
  leverage : ℚ
  takeProfit : ℚ
  stopLoss : ℚ
  trailingStopActivation : ℚ
  trailingStopDistance : ℚ
  capitalPercentage : ℚ
  rsiPeriod : ℚ
  rsiLowerBound : ℚ
  rsiUpperBound : ℚ
  rsiUpperBoundShort : ℚ
  rsiOverboughtShort : ℚ
  bollingerPeriod : ℚ
  bollingerStdDev : ℚ
  bbWidthMin : ℚ
  bbWidthMax : ℚ
  enableStopLoss : Bool
  enableTakeProfit : Bool
  enableTrailingStop : Bool
  maxPositions : ℚ
  enableNotifications : Bool
  notifyOnTrade : Bool
  notifyOnError : Bool
  notifyOnPnL : Bool
deriving DecidableEq, Repr

/-- The initial settings state; translated field by field from
Settings.jsx lines 5-37. -/
def defaultSettings : SettingsState :=
  { maxCapital := 10000
    leverage := 5
    takeProfit := 5.3
    stopLoss := 1.25
    trailingStopActivation := 1.5
    trailingStopDistance := 1.5
    capitalPercentage := 100
    rsiPeriod := 14
    rsiLowerBound := 15
    rsiUpperBound := 35
    rsiUpperBoundShort := 65
    rsiOverboughtShort := 85
    bollingerPeriod := 20
    bollingerStdDev := 2
    bbWidthMin := 0.01
    bbWidthMax := 0.08
    enableStopLoss := true
    enableTakeProfit := true
    enableTrailingStop := true
    maxPositions := 1
    enableNotifications := true
    notifyOnTrade := true
    notifyOnError := true
    notifyOnPnL := true }

/-- The settings object written back by the reset handler; translated
field by field from Settings.jsx lines 48-73 (handleReset). -/
def resetSettings : SettingsState :=
  { maxCapital := 10000
    leverage := 5
    takeProfit := 5.3
    stopLoss := 1.25
    trailingStopActivation := 1.5
    trailingStopDistance := 1.5
    capitalPercentage := 100
    rsiPeriod := 14
    rsiLowerBound := 15
    rsiUpperBound := 35
    rsiUpperBoundShort := 65
    rsiOverboughtShort := 85
    bollingerPeriod := 20
    bollingerStdDev := 2
    bbWidthMin := 0.01
    bbWidthMax := 0.08
    enableStopLoss := true
    enableTakeProfit := true
    enableTrailingStop := true
    maxPositions := 1
    enableNotifications := true
    notifyOnTrade := true
    notifyOnError := true
    notifyOnPnL := true }

/-- Claim C8, counterexample: the defaults in the code differ from the
claimed values — the code's takeProfit is 5.3 (not 5.5), its
rsiLowerBound is 15 (not 30) and its rsiOverboughtShort is 85
(not 70). -/
theorem default_settings_diverge_from_claim :
    defaultSettings.takeProfit = 5.3 ∧ ¬defaultSettings.takeProfit = 5.5 ∧
    defaultSettings.rsiLowerBound = 15 ∧ ¬defaultSettings.rsiLowerBound = 30 ∧
    defaultSettings.rsiOverboughtShort = 85 ∧ ¬defaultSettings.rsiOverboughtShort = 70 := by
  refine ⟨rfl, ?_, rfl, ?_, rfl, ?_⟩ <;> norm_num [defaultSettings]

/-- Claim C8 (amended): the configuration defaults in the Settings
component are exactly maxCapital 10000, leverage 5,
capitalPercentage 100, takeProfit 5.3, stopLoss 1.25, rsiPeriod 14,
rsiLowerBound/rsiUpperBound 15/35,
rsiUpperBoundShort/rsiOverboughtShort 65/85, bollingerPeriod 20,
bollingerStdDev 2, bbWidthMin/Max 0.01/0.08, maxPositions 1, and the
reset handler restores exactly these values. -/
theorem default_settings_values :
    defaultSettings.maxCapital = 10000 ∧
    defaultSettings.leverage = 5 ∧
    defaultSettings.capitalPercentage = 100 ∧
    defaultSettings.takeProfit = 5.3 ∧
    defaultSettings.stopLoss = 1.25 ∧
    defaultSettings.rsiPeriod = 14 ∧
    defaultSettings.rsiLowerBound = 15 ∧
    defaultSettings.rsiUpperBound = 35 ∧
    defaultSettings.rsiUpperBoundShort = 65 ∧
    defaultSettings.rsiOverboughtShort = 85 ∧
    defaultSettings.bollingerPeriod = 20 ∧
    defaultSettings.bollingerStdDev = 2 ∧
    defaultSettings.bbWidthMin = 0.01 ∧
    defaultSettings.bbWidthMax = 0.08 ∧
    defaultSettings.maxPositions = 1 ∧
    resetSettings = defaultSettings :=
  ⟨rfl, rfl, rfl, rfl, rfl, rfl, rfl, rfl, rfl, rfl, rfl, rfl, rfl, rfl, rfl, rfl⟩

/-- The outcome the Settings UI reports to the user after a save
attempt. -/
inductive SaveOutcome where
  | savedSuccessfully
  | errorShown
deriving DecidableEq, Repr

/-- Translated from Settings.jsx lines 39-43 (handleSave): the handler
logs the settings object and reports success unconditionally — no
field of the submitted settings is inspected or validated. -/
def handleSave : SettingsState → SaveOutcome :=
  fun _ => SaveOutcome.savedSuccessfully

/-- The backend's reply to the POST /api/config request issued by the
config editor. -/
structure ConfigPostReply where
  ok : Bool
  message : String
deriving DecidableEq, Repr

/-- Translated from Settings.jsx lines 457-481 (handleSaveConfig): the
handler performs no client-side validation of the edited config; it
reports success exactly when the backend replies OK and shows an error
otherwise. -/
def handleSaveConfig (reply : ConfigPostReply) : SaveOutcome :=
  if reply.ok then SaveOutcome.savedSuccessfully else SaveOutcome.errorShown

/-- Claim C9 (code bug exhibited): a configuration with out-of-range
values (negative leverage, capitalPercentage 500) is not rejected —
handleSave reports success for it, and handleSaveConfig's success
depends only on the backend reply, with no client-side range check. -/
theorem invalid_settings_still_report_success :
    handleSave { defaultSettings with leverage := -5, capitalPercentage := 500 } =
      SaveOutcome.savedSuccessfully ∧
    handleSaveConfig { ok := true, message := "saved" } =
      SaveOutcome.savedSuccessfully :=
  ⟨rfl, rfl⟩

/-! ## App shell (src/App.jsx) -/

/-- The bot status values displayed by the dashboard; translated from
App.jsx line 11. -/
inductive BotStatus where
  | LOADING_STATUS
  | RUNNING
  | STOPPED
  | ERROR_STATUS
deriving DecidableEq, Repr

/-- The parsed /api/status JSON body: `botRunning` embeds the
truthiness of its `bot_running` field, `payload` stands for the rest
of the parsed document.  Translated from App.jsx lines 48-51. -/
structure BotData where
  botRunning : Bool
  payload : ℕ
deriving DecidableEq, Repr

/-- The App component state relevant to fetchBotStatus; translated
from App.jsx lines 11-13. -/
structure AppState where
  botStatus : BotStatus
  botData : Option BotData
  errorMsg : Option String
deriving DecidableEq, Repr

/-- The initial App state; translated from App.jsx lines 11-13. -/
def initialAppState : AppState :=
  { botStatus := BotStatus.LOADING_STATUS, botData := none, errorMsg := none }

/-- The four observable outcomes of the fetch performed by
fetchBotStatus: the fetch throws (network error), the response is not
OK, the response is OK but its JSON body fails to parse, or the
response is OK and parses to `data`. -/
inductive FetchOutcome where
  | networkError (msg : String)
  | httpError (status : ℕ) (body : String)
  | okBadJson (msg : String)
  | okJson (data : BotData)
deriving DecidableEq, Repr

/-- The error detail built for a non-OK response (App.jsx lines
22-41); the exact formatting of the message is summarized, as only
its presence matters to the component state. -/
def errorDetail (status : ℕ) (body : String) : String :=
  "API Error " ++ toString status ++ ": " ++ body

/-- Translated from App.jsx lines 15-64 (fetchBotStatus): the handler
clears the previous error, then on a non-OK response, a JSON parse
failure or a network error it records the error detail, sets botStatus
to ERROR_STATUS and clears botData; on success it stores the parsed
data and sets botStatus to RUNNING exactly when the response's
bot_running field is truthy, STOPPED otherwise. -/
def fetchBotStatus (st : AppState) : FetchOutcome → AppState
  | .networkError msg =>
      { st with errorMsg := some msg, botStatus := BotStatus.ERROR_STATUS, botData := none }
  | .httpError status body =>
      { st with
          errorMsg := some (errorDetail status body)
          botStatus := BotStatus.ERROR_STATUS
          botData := none }
  | .okBadJson msg =>
      { st with errorMsg := some msg, botStatus := BotStatus.ERROR_STATUS, botData := none }
  | .okJson data =>
      { st with
          errorMsg := none
          botData := some data
          botStatus := if data.botRunning then BotStatus.RUNNING else BotStatus.STOPPED }

/-- Whether the fetch outcome is one of the three failure modes. -/
def fetchFailed : FetchOutcome → Bool
  | .okJson _ => false
  | _ => true

/-- Claim C10: on every run of fetchBotStatus, any failure (non-OK
response, network error or JSON-parse error) yields botStatus
ERROR_STATUS with botData cleared to none — no stale data next to an
error status — and a success stores the parsed response in botData and
yields RUNNING exactly when bot_running is truthy, STOPPED
otherwise. -/
theorem fetchBotStatus_status_and_data (st : AppState) (o : FetchOutcome) :
    (fetchFailed o = true →
      (fetchBotStatus st o).botStatus = BotStatus.ERROR_STATUS ∧
      (fetchBotStatus st o).botData = none) ∧
    (∀ d, o = FetchOutcome.okJson d →
      (fetchBotStatus st o).botData = some d ∧
      (fetchBotStatus st o).botStatus =
        (if d.botRunning then BotStatus.RUNNING else BotStatus.STOPPED)) := by
  cases o <;> simp [fetchBotStatus, fetchFailed]

/-- Witness for Claim C10: a concrete network error yields
ERROR_STATUS with no data, and a concrete successful response with
bot_running true yields RUNNING with the data stored. -/
theorem fetchBotStatus_status_and_data_witness :
    (fetchBotStatus initialAppState (FetchOutcome.networkError "server down")).botStatus
        = BotStatus.ERROR_STATUS ∧
    (fetchBotStatus initialAppState (FetchOutcome.networkError "server down")).botData = none ∧
    (fetchBotStatus initialAppState (FetchOutcome.okJson ⟨true, 7⟩)).botData = some ⟨true, 7⟩ ∧
    (fetchBotStatus initialAppState (FetchOutcome.okJson ⟨true, 7⟩)).botStatus
        = BotStatus.RUNNING := by
  have h1 := (fetchBotStatus_status_and_data initialAppState
    (FetchOutcome.networkError "server down")).1 rfl
  have h2 := (fetchBotStatus_status_and_data initialAppState
    (FetchOutcome.okJson ⟨true, 7⟩)).2 ⟨true, 7⟩ rfl
  exact ⟨h1.1, h1.2, h2.1, by rw [h2.2]; rfl⟩

end Hyperbot
